import Mathlib

/-!
Verification of the addressable command graph of `libqtile/command_graph.py`.

The module defines a small tree-addressing scheme: a root node, six kinds of
container objects (bar, group, layout, screen, widget, window), terminal call
nodes, a `navigate` operation resolving a name with an optional selector, and
path rendering.  The definitions below are a shallow embedding of that module:
the six concrete `CommandGraphObject` subclasses become the inductive
`ObjectType`, the class hierarchy of container nodes becomes the inductive
`CommandGraphContainer` (the root, or an object with its kind, selector and
parent), and `CommandGraphCall` stays a structure.  Python's `raise KeyError`
becomes an `Except` error result.
-/

/-- The six concrete container-object kinds (`_BarGraphNode` .. `_WindowGraphNode`). -/
inductive ObjectType where
  | bar
  | group
  | layout
  | screen
  | widget
  | window
deriving DecidableEq, Repr

/-- The `object_type` class attribute of each concrete `CommandGraphObject` subclass. -/
def object_type : ObjectType → String
  | .bar => "bar"
  | .group => "group"
  | .layout => "layout"
  | .screen => "screen"
  | .widget => "widget"
  | .window => "window"

/-- The `children` class attribute of each concrete `CommandGraphObject` subclass. -/
def objectChildren : ObjectType → List String
  | .bar => ["screen"]
  | .group => ["layout", "window", "screen"]
  | .layout => ["group", "window", "screen"]
  | .screen => ["layout", "window", "bar"]
  | .widget => ["bar", "screen", "group"]
  | .window => ["group", "screen", "layout"]

/-- A container node of the command graph: `CommandGraphRoot`, or a
`CommandGraphObject` instance with its kind, its `_selector` and its `_parent`. -/
inductive CommandGraphContainer where
  | root
  | object (t : ObjectType) (selector : Option String) (parent : CommandGraphContainer)
deriving DecidableEq, Repr

/-- `CommandGraphCall.__init__`: a terminal call node with its `_name` and `_parent`. -/
structure CommandGraphCall where
  name : String
  parent : CommandGraphContainer
deriving DecidableEq, Repr

/-- Result of `navigate`: either a container node or a call node. -/
inductive CommandGraphNode where
  | container (c : CommandGraphContainer)
  | call (c : CommandGraphCall)
deriving DecidableEq, Repr

/-- The two `KeyError`s the module can raise: the explicit
`"Given node is not an object"` error in `navigate`, and a miss of the
`_CommandGraphMap[name]` dictionary lookup. -/
inductive NavError where
  | notAnObject (name : String)
  | keyError (name : String)
deriving DecidableEq, Repr

/-- The `children` property: the fixed list on `CommandGraphRoot`, and the
per-subclass class attribute on a `CommandGraphObject`. -/
def children : CommandGraphContainer → List String
  | .root => ["bar", "group", "layout", "screen", "widget", "window"]
  | .object t _ _ => objectChildren t

/-- The `_CommandGraphMap` dictionary from kind name to subclass constructor,
as a partial lookup (entries in source order). -/
def _CommandGraphMap : String → Option ObjectType
  | "bar" => some .bar
  | "group" => some .group
  | "layout" => some .layout
  | "widget" => some .widget
  | "window" => some .window
  | "screen" => some .screen
  | _ => none

/-- `CommandGraphContainer.navigate`: if `name` is a child kind, construct the
corresponding `CommandGraphObject` with the given selector and this node as
parent (a dictionary miss would raise `KeyError`); otherwise, with a selector
present, raise the not-an-object `KeyError`; otherwise return a
`CommandGraphCall`. -/
def navigate (node : CommandGraphContainer) (name : String) (selector : Option String) :
    Except NavError CommandGraphNode :=
  if name ∈ children node then
    match _CommandGraphMap name with
    | some t => .ok (.container (.object t selector node))
    | none => .error (.keyError name)
  else
    match selector with
    | some _ => .error (.notAnObject name)
    | none => .ok (.call ⟨name, node⟩)

/-- The `selectors` property on container nodes: `[]` at the root, and
`parent.selectors + [(object_type, selector)]` on an object node. -/
def CommandGraphContainer.selectors : CommandGraphContainer → List (String × Option String)
  | .root => []
  | .object t s p => p.selectors ++ [(object_type t, s)]

/-- The `selectors` property on a call node: `self.parent.selectors`. -/
def CommandGraphCall.selectors (c : CommandGraphCall) : List (String × Option String) :=
  c.parent.selectors

/-- `_format_selectors`: render each step as `name[selector]` when the selector
is present, else as `name`, and join the elements with a dot. -/
def _format_selectors (selectors : List (String × Option String)) : String :=
  let path_elements := selectors.map fun step =>
    match step.2 with
    | some selector => step.1 ++ "[" ++ selector ++ "]"
    | none => step.1
  String.intercalate "." path_elements

/-- The `path` property on container nodes: `_format_selectors(self.selectors)`. -/
def CommandGraphContainer.path (c : CommandGraphContainer) : String :=
  _format_selectors c.selectors

/-- The `path` property on a call node: `parent.path + "." + name` when the
parent path is non-empty (Python truthiness of the string), else just `name`. -/
def CommandGraphCall.path (c : CommandGraphCall) : String :=
  let parent_path := c.parent.path
  if parent_path ≠ "" then parent_path ++ "." ++ c.name else c.name

/-- The `path` property of either node variant. -/
def CommandGraphNode.path : CommandGraphNode → String
  | .container c => c.path
  | .call c => c.path

/-- The `parent` property on container nodes: `None` on the root, the stored
`_parent` on an object node. -/
def CommandGraphContainer.parent : CommandGraphContainer → Option CommandGraphContainer
  | .root => none
  | .object _ _ p => some p

/-- Length of the parent chain of a container node. -/
def CommandGraphContainer.depth : CommandGraphContainer → Nat
  | .root => 0
  | .object _ _ p => p.depth + 1

/-- The ancestor (parent) chain of a container node, nearest parent first. -/
def CommandGraphContainer.ancestors : CommandGraphContainer → List CommandGraphContainer
  | .root => []
  | .object _ _ p => p :: p.ancestors

/-- Iterate `navigate` along a list of steps, keeping only container results:
returns the reached container when every step resolves to a container object,
`none` as soon as a step errors or produces a call. -/
def navigateContainers : CommandGraphContainer → List (String × Option String) →
    Option CommandGraphContainer
  | c, [] => some c
  | c, (name, sel) :: rest =>
    match navigate c name sel with
    | .ok (.container c2) => navigateContainers c2 rest
    | _ => none

instance {ε α : Type} [DecidableEq ε] [DecidableEq α] : DecidableEq (Except ε α) := fun a b =>
  match a, b with
  | .ok x, .ok y =>
    if h : x = y then .isTrue (by rw [h]) else .isFalse (by intro hc; cases hc; exact h rfl)
  | .ok _, .error _ => .isFalse (by intro hc; cases hc)
  | .error _, .ok _ => .isFalse (by intro hc; cases hc)
  | .error x, .error y =>
    if h : x = y then .isTrue (by rw [h]) else .isFalse (by intro hc; cases hc; exact h rfl)

/-- Every name in any node's `children` list is one of the six kind names,
is a key of `_CommandGraphMap`, and the kind it maps to renders back to it. -/
lemma map_of_mem_children (n : CommandGraphContainer) (c : String) (h : c ∈ children n) :
    ∃ t, _CommandGraphMap c = some t ∧ object_type t = c := by
  have hc : c = "bar" ∨ c = "group" ∨ c = "layout" ∨ c = "screen" ∨ c = "widget" ∨
      c = "window" := by
    cases n with
    | root => simp [children] at h; tauto
    | object t s p => cases t <;> simp [children, objectChildren] at h <;> tauto
  rcases hc with rfl | rfl | rfl | rfl | rfl | rfl
  · exact ⟨.bar, rfl, rfl⟩
  · exact ⟨.group, rfl, rfl⟩
  · exact ⟨.layout, rfl, rfl⟩
  · exact ⟨.screen, rfl, rfl⟩
  · exact ⟨.widget, rfl, rfl⟩
  · exact ⟨.window, rfl, rfl⟩

/-- On a recognized child name, `navigate` returns the freshly built object node. -/
lemma navigate_of_mem (n : CommandGraphContainer) (c : String) (s : Option String)
    (h : c ∈ children n) :
    ∃ t, navigate n c s = .ok (.container (.object t s n)) ∧ object_type t = c := by
  obtain ⟨t, hm, ho⟩ := map_of_mem_children n c h
  exact ⟨t, by simp [navigate, h, hm], ho⟩

/-- On an unrecognized name with a selector, `navigate` raises the not-an-object error. -/
lemma navigate_not_mem_some (n : CommandGraphContainer) (c : String) (s : String)
    (h : c ∉ children n) :
    navigate n c (some s) = .error (.notAnObject c) := by
  simp [navigate, h]

/-- On an unrecognized name without a selector, `navigate` returns a call node. -/
lemma navigate_not_mem_none (n : CommandGraphContainer) (c : String)
    (h : c ∉ children n) :
    navigate n c none = .ok (.call ⟨c, n⟩) := by
  simp [navigate, h]

/-- Claim C1: for every container node `n`, every name `c` in `n.children` and every
selector `s` (present or absent), `navigate n c s` succeeds and returns a newly
constructed container object whose kind renders as `c`, whose selector is `s` and
whose parent is `n`. -/
theorem navigate_recognized_child (n : CommandGraphContainer) (c : String)
    (s : Option String) (h : c ∈ children n) :
    ∃ t, navigate n c s = .ok (.container (.object t s n)) ∧ object_type t = c :=
  navigate_of_mem n c s h

theorem navigate_recognized_child_witness :
    ("screen" ∈ children .root) ∧
    ∃ t, navigate .root "screen" (some "1") = .ok (.container (.object t (some "1") .root)) ∧
      object_type t = "screen" :=
  ⟨by decide, navigate_recognized_child .root "screen" (some "1") (by decide)⟩

/-- Claim C2: for every container node `n` and name `c` not in `n.children`,
`navigate n c (some s)` fails with the not-an-object error for every selector
string `s`, and `navigate n c none` returns a terminal call with name `c` and
parent `n`; moreover `navigate` errors iff the name is unrecognized and a
selector was supplied. -/
theorem navigate_unrecognized_behavior (n : CommandGraphContainer) (c : String) :
    (c ∉ children n →
      (∀ s : String, navigate n c (some s) = .error (.notAnObject c)) ∧
      navigate n c none = .ok (.call ⟨c, n⟩)) ∧
    (∀ s : Option String,
      (∃ e, navigate n c s = .error e) ↔ (c ∉ children n ∧ s.isSome = true)) := by
  constructor
  · intro h
    exact ⟨fun s => navigate_not_mem_some n c s h, navigate_not_mem_none n c h⟩
  · intro s
    constructor
    · rintro ⟨e, he⟩
      by_cases hm : c ∈ children n
      · obtain ⟨t, ht, -⟩ := navigate_of_mem n c s hm
        rw [ht] at he
        cases he
      · refine ⟨hm, ?_⟩
        cases s with
        | none => rw [navigate_not_mem_none n c hm] at he; cases he
        | some v => rfl
    · rintro ⟨hm, hs⟩
      cases s with
      | none => simp at hs
      | some v => exact ⟨_, navigate_not_mem_some n c v hm⟩

theorem navigate_unrecognized_behavior_witness :
    navigate .root "status" (some "x") = .error (.notAnObject "status") ∧
    navigate .root "status" none = .ok (.call ⟨"status", .root⟩) ∧
    ∃ e, navigate .root "status" (some "x") = .error e := by
  have h := navigate_unrecognized_behavior .root "status"
  exact ⟨(h.1 (by decide)).1 "x", (h.1 (by decide)).2,
    (h.2 (some "x")).mpr ⟨by decide, rfl⟩⟩

/-- Claim C3: the root's children are exactly the six kind names, and navigation
from the root with a selector succeeds exactly on members of that list. -/
theorem root_children_exact :
    children .root = ["bar", "group", "layout", "screen", "widget", "window"] ∧
    ∀ (k : String) (s : String),
      (∃ r, navigate .root k (some s) = .ok r) ↔ k ∈ children .root := by
  refine ⟨rfl, fun k s => ?_⟩
  constructor
  · rintro ⟨r, hr⟩
    by_contra hm
    rw [navigate_not_mem_some .root k s hm] at hr
    cases hr
  · intro hm
    obtain ⟨t, ht, -⟩ := navigate_of_mem .root k (some s) hm
    exact ⟨_, ht⟩

theorem root_children_exact_witness :
    (∃ r, navigate .root "window" (some "2") = .ok r) ∧
    ¬∃ r, navigate .root "nosuch" (some "2") = .ok r := by
  have h := root_children_exact
  refine ⟨(h.2 "window" "2").mpr (by decide), fun hr => ?_⟩
  have := (h.2 "nosuch" "2").mp hr
  revert this
  decide

/-- Claim C4: the per-kind children lists equal the adjacency table exactly and
depend only on the object kind (not on selector or parent); the table is not
symmetric: a widget node resolves `"window"` to a call, while a window node
resolves `"group"` to a container object. -/
theorem children_table_exact :
    (objectChildren .bar = ["screen"]) ∧
    (objectChildren .group = ["layout", "window", "screen"]) ∧
    (objectChildren .layout = ["group", "window", "screen"]) ∧
    (objectChildren .screen = ["layout", "window", "bar"]) ∧
    (objectChildren .widget = ["bar", "screen", "group"]) ∧
    (objectChildren .window = ["group", "screen", "layout"]) ∧
    (∀ (t : ObjectType) (s : Option String) (p : CommandGraphContainer),
      children (.object t s p) = objectChildren t) ∧
    (("window" ∈ objectChildren .widget) = False) ∧
    (("group" ∈ objectChildren .window) = True) ∧
    (∀ (s : Option String) (p : CommandGraphContainer),
      navigate (.object .widget s p) "window" none =
        .ok (.call ⟨"window", .object .widget s p⟩)) ∧
    (∀ (s : Option String) (p : CommandGraphContainer),
      navigate (.object .window s p) "group" none =
        .ok (.container (.object .group none (.object .window s p)))) :=
  ⟨rfl, rfl, rfl, rfl, rfl, rfl, fun _ _ _ => rfl,
    eq_false (by decide), eq_true (by decide),
    fun _ _ => rfl, fun _ _ => rfl⟩

theorem children_table_exact_witness :
    navigate (.object .widget none .root) "window" none =
      .ok (.call ⟨"window", .object .widget none .root⟩) ∧
    navigate (.object .window none .root) "group" none =
      .ok (.container (.object .group none (.object .window none .root))) :=
  ⟨children_table_exact.2.2.2.2.2.2.2.2.2.1 none .root,
    children_table_exact.2.2.2.2.2.2.2.2.2.2 none .root⟩

/-- Claim C5: the selector chain satisfies the recursion: the root has no
selectors, a container object appends its own `(object_type, selector)` step to
its parent's chain, and a call adds no step of its own. -/
theorem selectors_recursion :
    (CommandGraphContainer.root.selectors = []) ∧
    (∀ (t : ObjectType) (s : Option String) (p : CommandGraphContainer),
      (CommandGraphContainer.object t s p).selectors = p.selectors ++ [(object_type t, s)]) ∧
    (∀ c : CommandGraphCall, c.selectors = c.parent.selectors) :=
  ⟨rfl, fun _ _ _ => rfl, fun _ => rfl⟩

/-- Claim C6: `_format_selectors` joins the steps with a dot, rendering a step as
`kind[selector]` when the selector is present and as `kind` otherwise; a call's
path is `parent.path + "." + name` when the parent path is non-empty and just
`name` otherwise; with the two concrete examples from the specification. -/
theorem format_path_spec :
    (∀ steps : List (String × Option String),
      _format_selectors steps = String.intercalate "."
        (steps.map fun step =>
          match step.2 with
          | some sel => step.1 ++ "[" ++ sel ++ "]"
          | none => step.1)) ∧
    (∀ c : CommandGraphCall,
      c.path = if c.parent.path = "" then c.name else c.parent.path ++ "." ++ c.name) ∧
    (_format_selectors [("screen", some "1"), ("layout", none)] = "screen[1].layout") ∧
    (∃ k, navigate .root "status" none = .ok (.call k) ∧ k.path = "status") := by
  refine ⟨fun steps => rfl, fun c => ?_, by decide, ⟨⟨"status", .root⟩, by decide, by decide⟩⟩
  unfold CommandGraphCall.path
  by_cases h : c.parent.path = "" <;> simp [h]

/-- Claim C7: every container node's path is the rendering of its own selector
chain, and the two concrete navigations from the specification produce the paths
`"screen[1].layout"` and `"group[work].info"`. -/
theorem path_renders_selectors :
    (∀ c : CommandGraphContainer, _format_selectors c.selectors = c.path) ∧
    (∃ c1, navigate .root "screen" (some "1") = .ok (.container c1) ∧
      ∃ c2, navigate c1 "layout" none = .ok (.container c2) ∧
        c2.path = "screen[1].layout") ∧
    (∃ c1, navigate .root "group" (some "work") = .ok (.container c1) ∧
      ∃ k, navigate c1 "info" none = .ok (.call k) ∧ k.path = "group[work].info") :=
  ⟨fun _ => rfl,
    ⟨.object .screen (some "1") .root, by decide,
      .object .layout none (.object .screen (some "1") .root), by decide, by decide⟩,
    ⟨.object .group (some "work") .root, by decide,
      ⟨"info", .object .group (some "work") .root⟩, by decide, by decide⟩⟩

/-- Claim C10: the canonical path string is not injective: the call obtained by
navigating to the unrecognized name `"screen[1]"` and the container obtained by
navigating to `"screen"` with selector `"1"` are distinct nodes with equal
paths. -/
theorem path_not_injective :
    ∃ n1 n2 : CommandGraphNode,
      navigate .root "screen[1]" none = .ok n1 ∧
      navigate .root "screen" (some "1") = .ok n2 ∧
      n1 ≠ n2 ∧ n1.path = n2.path :=
  ⟨.call ⟨"screen[1]", .root⟩, .container (.object .screen (some "1") .root),
    by decide, by decide, by decide, by decide⟩

/-- The ancestor chain has the same length as the depth of the node. -/
lemma ancestors_length_eq_depth (c : CommandGraphContainer) :
    c.ancestors.length = c.depth := by
  induction c with
  | root => rfl
  | object t s p ih =>
    simp [CommandGraphContainer.ancestors, CommandGraphContainer.depth, ih]

/-- Every ancestor of a node is strictly shallower than the node. -/
lemma depth_lt_of_mem_ancestors (c a : CommandGraphContainer) (h : a ∈ c.ancestors) :
    a.depth < c.depth := by
  induction c with
  | root => simp [CommandGraphContainer.ancestors] at h
  | object t s p ih =>
    simp only [CommandGraphContainer.ancestors, List.mem_cons] at h
    rcases h with rfl | h
    · simp [CommandGraphContainer.depth]
    · exact Nat.lt_trans (ih h) (by simp [CommandGraphContainer.depth])

/-- The ancestor chain of a non-root node ends at the root. -/
lemma ancestors_getLast_root (c : CommandGraphContainer) :
    c = .root ∨ c.ancestors.getLast? = some .root := by
  induction c with
  | root => exact Or.inl rfl
  | object t s p ih =>
    refine Or.inr ?_
    cases p with
    | root => rfl
    | object t2 s2 p2 =>
      have h : (CommandGraphContainer.object t2 s2 p2).ancestors.getLast? = some .root := by
        rcases ih with h | h
        · exact absurd h (by intro hc; cases hc)
        · exact h
      show ((CommandGraphContainer.object t2 s2 p2) :: (p2 :: p2.ancestors)).getLast?
          = some .root
      rw [List.getLast?_cons_cons]
      exact h

/-- A successful container result of `navigate` is a fresh object node whose
parent is the node navigated from. -/
lemma navigate_ok_container (n : CommandGraphContainer) (name : String)
    (sel : Option String) (c2 : CommandGraphContainer)
    (h : navigate n name sel = .ok (.container c2)) :
    ∃ t, c2 = .object t sel n := by
  unfold navigate at h
  split at h
  · split at h
    · injection h with h
      injection h with h
      exact ⟨_, h.symm⟩
    · cases h
  · cases sel with
    | some v => cases h
    | none => injection h with h; cases h

/-- Iterating `navigate` through containers adds exactly one level per step. -/
lemma navigateContainers_depth (steps : List (String × Option String))
    (c0 c : CommandGraphContainer) (h : navigateContainers c0 steps = some c) :
    c.depth = c0.depth + steps.length := by
  induction steps generalizing c0 with
  | nil =>
    injection h with h
    subst h
    rfl
  | cons st rest ih =>
    obtain ⟨nm, sl⟩ := st
    unfold navigateContainers at h
    split at h
    case _ c2 heq =>
      have hd : c2.depth = c0.depth + 1 := by
        obtain ⟨t, rfl⟩ := navigate_ok_container c0 nm sl c2 heq
        rfl
      rw [ih c2 h, hd]
      simp only [List.length_cons]
      omega
    case _ => cases h

/-- Claim C8: navigation never creates a cycle: every non-root container has a
parent, the ancestor chain is as long as the node is deep, ends at the root,
never contains the node itself, and after any finite sequence of
container-producing navigation steps from the root the chain's length equals
the number of steps taken. -/
theorem navigation_acyclic (c : CommandGraphContainer)
    (steps : List (String × Option String)) :
    (c ≠ .root → (CommandGraphContainer.parent c).isSome = true) ∧
    (c.ancestors.length = c.depth) ∧
    (c ≠ .root → c.ancestors.getLast? = some .root) ∧
    (c ∉ c.ancestors) ∧
    (navigateContainers .root steps = some c → c.ancestors.length = steps.length) := by
  refine ⟨?_, ancestors_length_eq_depth c, ?_, ?_, ?_⟩
  · intro h
    cases c with
    | root => exact absurd rfl h
    | object t s p => rfl
  · intro h
    rcases ancestors_getLast_root c with h2 | h2
    · exact absurd h2 h
    · exact h2
  · intro h
    exact absurd (depth_lt_of_mem_ancestors c c h) (lt_irrefl _)
  · intro h
    have := navigateContainers_depth steps .root c h
    rw [ancestors_length_eq_depth c, this]
    show CommandGraphContainer.root.depth + steps.length = steps.length
    rw [CommandGraphContainer.depth]
    omega

theorem navigation_acyclic_witness :
    ((CommandGraphContainer.parent (.object .screen (some "1") .root)).isSome = true) ∧
    ((CommandGraphContainer.object .screen (some "1") .root).ancestors.getLast?
      = some .root) ∧
    ((CommandGraphContainer.object .screen (some "1") .root) ∉
      (CommandGraphContainer.object .screen (some "1") .root).ancestors) ∧
    ((CommandGraphContainer.object .screen (some "1") .root).ancestors.length = 1) := by
  have h := navigation_acyclic (.object .screen (some "1") .root) [("screen", some "1")]
  exact ⟨h.1 (by decide), h.2.2.1 (by decide), h.2.2.2.1,
    h.2.2.2.2 (by decide)⟩

/-- Claim C9: the dispatch map lookup in `navigate` is total on recognized
names: every member of any node's children list is a key of `_CommandGraphMap`,
the map's domain is exactly the six kind names, the constructed node's kind
renders back to the looked-up name, and the only error `navigate` can produce
is the not-an-object error. -/
theorem dispatch_total (n : CommandGraphContainer) (name : String) (s : Option String) :
    (name ∈ children n → ∃ t, _CommandGraphMap name = some t ∧ object_type t = name) ∧
    ((_CommandGraphMap name).isSome = true ↔
      name ∈ (["bar", "group", "layout", "screen", "widget", "window"] : List String)) ∧
    (∀ e, navigate n name s = .error e → e = .notAnObject name) := by
  refine ⟨map_of_mem_children n name, ?_, ?_⟩
  · constructor
    · intro h
      rw [_CommandGraphMap.eq_def] at h
      split at h <;> simp_all
    · intro h
      simp only [List.mem_cons, List.not_mem_nil, or_false] at h
      rcases h with rfl | rfl | rfl | rfl | rfl | rfl <;> rfl
  · intro e he
    by_cases hm : name ∈ children n
    · obtain ⟨t, ht, -⟩ := navigate_of_mem n name s hm
      rw [ht] at he
      cases he
    · cases s with
      | none => rw [navigate_not_mem_none n name hm] at he; cases he
      | some v =>
        rw [navigate_not_mem_some n name v hm] at he
        injection he with he
        exact he.symm

theorem dispatch_total_witness :
    (∃ t, _CommandGraphMap "bar" = some t ∧ object_type t = "bar") ∧
    ((_CommandGraphMap "bar").isSome = true) ∧
    (NavError.notAnObject "nosuch" = .notAnObject "nosuch") := by
  have h := dispatch_total .root "bar" none
  have h2 := dispatch_total .root "nosuch" (some "x")
  exact ⟨h.1 (by decide), (h.2.1).mpr (by decide),
    h2.2.2 (.notAnObject "nosuch") (by decide)⟩
